import Mathlib

/-!
Shallow embedding of `pygeoapi/provider/mongo.py` (class `MongoProvider`):
the query-filter translation, sort translation, fetch/paginate/normalize
path, single-record lookup and the update mutation.

Modelling conventions:
* Python datetimes are microseconds since the epoch (`Nat`).  MongoDB stores
  dates at one-millisecond resolution, truncating sub-millisecond digits, so
  the match semantics compares values after division by 1000.
* MongoDB documents are association lists `List (String × TVal)`; nested
  `properties` mappings are association lists of scalar `PVal` values.
* `ObjectId` is modelled as a `Nat`; parsing an identifier string is
  modelled by decimal parsing of a non-empty digit string (fallible, as
  `ObjectId(identifier)` raises `InvalidId` on a malformed string).
* Numeric coordinate values (the `map(float, bbox)` conversion) are
  modelled as rationals.
* Python exceptions (`ValueError`, `InvalidId`) become `Except String`.
-/

namespace MongoSpec

/-- Scalar values stored inside a document's `properties` mapping. -/
inductive PVal where
  | str (s : String)
  | int (n : Int)
  | num (q : Rat)
  | bool (b : Bool)
  | date (usec : Nat)
deriving DecidableEq, Repr

/-- Top-level values of a MongoDB document: the native `_id`, the already
normalized string `id`, the `geometry` field (a point, enough for the
`$geoWithin $box` semantics), the nested `properties` mapping, or a scalar. -/
inductive TVal where
  | oid (n : Nat)
  | str (s : String)
  | geo (x y : Rat)
  | props (l : List (String × PVal))
  | pval (v : PVal)
deriving DecidableEq, Repr

/-- A MongoDB document: ordered key/value pairs (a Python dict). -/
def Doc := List (String × TVal)
deriving DecidableEq, Repr

/-- First-match association-list lookup (Python dict access). -/
def lookupK (k : String) : List (String × α) → Option α
  | [] => none
  | (k', v) :: l => if k' = k then some v else lookupK k l

/-- Python `d[k] = v`: replace the value at an existing key in place,
otherwise append the new pair at the end. -/
def setKey (k : String) (v : α) : List (String × α) → List (String × α)
  | [] => [(k, v)]
  | kv :: l => if kv.1 = k then (k, v) :: l else kv :: setKey k v l

/-- Python `d.pop(k)` / dict-comprehension key removal: drop the key. -/
def eraseKey (k : String) (d : List (String × α)) : List (String × α) :=
  d.filter (fun kv => kv.1 ≠ k)

/-- Python `str()` applied to a popped `_id` value (`str(item.pop('_id'))`).
For an `ObjectId` this is its hex string, modelled as the decimal string of
the modelled `Nat`. -/
def tvalStr : TVal → String
  | .oid n => toString n
  | .str s => s
  | .geo x y => toString x ++ "," ++ toString y
  | .props _ => "object"
  | .pval (.str s) => s
  | .pval (.int n) => toString n
  | .pval (.num q) => toString q
  | .pval (.bool b) => toString b
  | .pval (.date u) => toString u

/-- MongoDB stores dates with one-millisecond resolution: sub-millisecond
digits of a microsecond timestamp are truncated. -/
def msTrunc (usec : Nat) : Nat := usec / 1000

/-- `pymongo.ASCENDING`. -/
def ASCENDING : Int := 1

/-- `pymongo.DESCENDING`. -/
def DESCENDING : Int := -1

/-- Modelled from the spec: `pygeoapi.date_time.DatetimeRange` (its module is
not part of this repository snapshot) is a value with optional `start` and
optional `end` bounds; bounds are datetimes, modelled as microseconds. -/
structure DatetimeRange where
  start : Option Nat
  stop : Option Nat
deriving DecidableEq, Repr

/-- One conjunct of the `$and` filter built by `MongoProvider.query`:
* `geoWithinBox x y w h` — `{'geometry': {'$geoWithin': {'$box': [[x, y], [w, h]]}}}`;
* `dtRange field gte lt` — `{'properties.<field>': {'$gte': …, '$lt': …}}`
  with the keys that are present;
* `propEq name v` — `{'properties.<name>': {'$eq': v}}`;
* `idEq o` — the `{'_id': ObjectId(identifier)}` filter used by `get`. -/
inductive QCond where
  | geoWithinBox (x y w h : Rat)
  | dtRange (field : String) (gte : Option Nat) (lt : Option Nat)
  | propEq (name : String) (v : PVal)
  | idEq (o : Nat)
deriving DecidableEq, Repr

/-- Whether a document satisfies one filter conjunct.  Dates are compared at
MongoDB's one-millisecond resolution (`msTrunc` on both sides); a missing or
non-date value never satisfies a date-range comparison. -/
def condMatch (d : Doc) : QCond → Bool
  | .geoWithinBox x y w h =>
    match lookupK "geometry" d with
    | some (.geo px py) =>
      decide (min x w ≤ px) && decide (px ≤ max x w) &&
      decide (min y h ≤ py) && decide (py ≤ max y h)
    | _ => false
  | .dtRange field gte lt =>
    match lookupK "properties" d with
    | some (.props l) =>
      match lookupK field l with
      | some (.date u) =>
        (match gte with
         | some s => decide (msTrunc s ≤ msTrunc u)
         | none => true) &&
        (match lt with
         | some e => decide (msTrunc u < msTrunc e)
         | none => true)
      | _ => false
    | _ => false
  | .propEq name v =>
    match lookupK "properties" d with
    | some (.props l) => lookupK name l == some v
    | _ => false
  | .idEq o => lookupK "_id" d == some (.oid o)

/-- Whether a document satisfies the whole filter (`$and` of the conjuncts;
the empty filter `{}` matches every document). -/
def docMatch (filt : List QCond) (d : Doc) : Bool :=
  filt.all (condMatch d)

/-- BSON type-bracket rank used when a sort key compares values of different
types (numbers before strings before booleans before dates; detail is
irrelevant to the claims, only that the comparator is total). -/
def pvalRank : PVal → Nat
  | .int _ => 1
  | .num _ => 1
  | .str _ => 2
  | .bool _ => 3
  | .date _ => 4

/-- Numeric content of a scalar, for cross-comparing `int` and `num`. -/
def pvalToRat : PVal → Rat
  | .int n => (n : Rat)
  | .num q => q
  | _ => 0

/-- Total comparator on scalar property values (the server's sort order). -/
def pvalLe (a b : PVal) : Bool :=
  if pvalRank a < pvalRank b then true
  else if pvalRank b < pvalRank a then false
  else match a, b with
    | .str s, .str t => decide (s ≤ t)
    | .bool x, .bool y => !x || y
    | .date u, .date v => decide (msTrunc u ≤ msTrunc v)
    | a, b => decide (pvalToRat a ≤ pvalToRat b)

/-- Missing sort-key values order before present ones. -/
def optPvalLe : Option PVal → Option PVal → Bool
  | none, _ => true
  | some _, none => false
  | some a, some b => pvalLe a b

/-- Resolve a dotted sort path against a document.  The provider only
emits `properties.<name>` paths, so only those are resolved. -/
def lookupPath (d : Doc) (path : String) : Option PVal :=
  if path.startsWith "properties." then
    match lookupK "properties" d with
    | some (.props l) => lookupK (path.drop 11) l
    | _ => none
  else none

/-- Lexicographic document comparator induced by a MongoDB sort
specification (list of (path, direction) pairs, 1 = ascending). -/
def docLe (sortList : List (String × Int)) (a b : Doc) : Bool :=
  match sortList with
  | [] => true
  | (path, dir) :: rest =>
    let va := lookupPath a path
    let vb := lookupPath b path
    if va = vb then docLe rest a b
    else if dir = ASCENDING then optPvalLe va vb else optPvalLe vb va

/-- Insert into a sorted list (helper for `sortWith`). -/
def insertLe (le : α → α → Bool) (a : α) : List α → List α
  | [] => [a]
  | b :: l => if le a b then a :: b :: l else b :: insertLe le a l

/-- Comparator sort, modelling `cursor.sort(sortList)`. -/
def sortWith (le : α → α → Bool) : List α → List α
  | [] => []
  | a :: l => insertLe le a (sortWith le l)

/-- Whether a top-level value is a string (used to state that normalized
identifiers are always strings). -/
def isStrVal : Option TVal → Bool
  | some (.str _) => true
  | _ => false

/-- Whether a document carries a native `ObjectId` identifier under `_id`
(every document stored by MongoDB does). -/
def hasOid (d : Doc) : Bool :=
  match lookupK "_id" d with
  | some (.oid _) => true
  | _ => false

/-- `item['id'] = str(item.pop('_id'))`: pop the native `_id` and store its
string form under `id`.  (A document without `_id` would raise `KeyError`
in Python; MongoDB documents always carry `_id`, and the theorems about
normalization assume its presence.) -/
def normalizeDoc (d : Doc) : Doc :=
  match lookupK "_id" d with
  | some v => setKey "id" (.str (tvalStr v)) (eraseKey "_id" d)
  | none => d

/-- `MongoProvider._get_feature_list`: filter, optionally sort, count the
matches, skip, cap to `maxitems` only when `maxitems > 0`, and normalize
each returned document.  Returns (feature list, match count). -/
def getFeatureList (db : List Doc) (filterObj : List QCond)
    (sortList : List (String × Int)) (skip : Nat) (maxitems : Int) :
    List Doc × Nat :=
  let found := db.filter (docMatch filterObj)
  let sorted := if sortList.isEmpty then found else sortWith (docLe sortList) found
  let matchCount := (db.filter (docMatch filterObj)).length
  let afterSkip := sorted.drop skip
  let capped := if maxitems > 0 then afterSkip.take maxitems.toNat else afterSkip
  (capped.map normalizeDoc, matchCount)

/-- A sort specification as received by `query` (`sort['property']`,
`sort['order']`, with order `"A"` meaning ascending). -/
structure SortSpec where
  property : String
  order : String
deriving DecidableEq, Repr

/-- `MongoProvider._get_sort_property_name`. -/
def getSortPropertyName (dtField : String) (sort : SortSpec) : String :=
  if sort.property = "datetime" then "properties." ++ dtField
  else "properties." ++ sort.property

/-- The sort translation performed inline in `query`. -/
def sortTranslate (dtField : String) (sortby : List SortSpec) : List (String × Int) :=
  sortby.map (fun sort =>
    (getSortPropertyName dtField sort,
     if sort.order = "A" then ASCENDING else DESCENDING))

/-- The bounding-box conjunct of `query`'s filter: present exactly when the
box has 4 values, destructured as x, y, w, h. -/
def bboxConds (bbox : List Rat) : List QCond :=
  if bbox.length = 4 then
    match bbox with
    | x :: y :: w :: h :: _ => [.geoWithinBox x y w h]
    | _ => []
  else []

/-- The datetime conjunct of `query`'s filter: round a sub-millisecond upper
bound up by one millisecond, then emit `$gte`/`$lt` for the bounds present;
raise `ValueError` when both bounds are absent. -/
def dtConds (dtField : String) (datetime : Option DatetimeRange) :
    Except String (List QCond) :=
  match datetime with
  | none => .ok []
  | some range =>
    let e : Option Nat :=
      match range.stop with
      | some e0 => some (if e0 % 1000 ≠ 0 then e0 + 1000 else e0)
      | none => none
    match range.start, range.stop with
    | some s, some _ => .ok [.dtRange dtField (some s) e]
    | some s, none => .ok [.dtRange dtField (some s) none]
    | none, some _ => .ok [.dtRange dtField none e]
    | none, none => .error "DatetimeRange begin and end are None"

/-- The property-equality conjuncts of `query`'s filter. -/
def propConds (properties : List (String × PVal)) : List QCond :=
  properties.map (fun prop => .propEq prop.1 prop.2)

/-- The full filter built by `query` (`and_filter`, in source order:
bounding box, datetime range, property equalities; the empty list is the
empty filter `{}`). -/
def buildFilter (dtField : String) (bbox : List Rat)
    (datetime : Option DatetimeRange) (properties : List (String × PVal)) :
    Except String (List QCond) := do
  let dtc ← dtConds dtField datetime
  return bboxConds bbox ++ dtc ++ propConds properties

/-- The FeatureCollection response shape of `query`. -/
structure FeatureCollection where
  type : String
  features : List Doc
  numberMatched : Nat
  numberReturned : Nat
deriving DecidableEq, Repr

/-- `MongoProvider.query`: build the filter and sort list, fetch via
`getFeatureList` with skip = startindex and maxitems = limit, empty the
feature list in `hits` mode, and wrap the result. -/
def query (dtField : String) (db : List Doc) (startindex : Nat) (limit : Int)
    (resulttype : String) (bbox : List Rat) (datetime : Option DatetimeRange)
    (properties : List (String × PVal)) (sortby : List SortSpec) :
    Except String FeatureCollection := do
  let filterobj ← buildFilter dtField bbox datetime properties
  let sortList := sortTranslate dtField sortby
  let fetched := getFeatureList db filterobj sortList startindex limit
  let featurelist := if resulttype = "hits" then [] else fetched.1
  return { type := "FeatureCollection"
           features := featurelist
           numberMatched := fetched.2
           numberReturned := featurelist.length }

/-- Decimal digit value of a character, if it is a digit. -/
def charDigit (c : Char) : Option Nat :=
  if 48 ≤ c.toNat ∧ c.toNat ≤ 57 then some (c.toNat - 48) else none

/-- Accumulate the decimal value of a digit string; fails at the first
non-digit character. -/
def parseNatCore : List Char → Nat → Option Nat
  | [], acc => some acc
  | c :: cs, acc =>
    match charDigit c with
    | some dv => parseNatCore cs (acc * 10 + dv)
    | none => none

/-- `ObjectId(identifier)`: fallible parse of an identifier string into the
native identifier type (which raises `InvalidId` on a malformed string),
modelled as decimal parsing of a non-empty digit string. -/
def parseObjectId (identifier : String) : Option Nat :=
  match identifier.data with
  | [] => none
  | cs => parseNatCore cs 0

/-- `MongoProvider.get`: parse the identifier (raising `InvalidId` on
failure), fetch with the `_id` filter and `_get_feature_list` defaults
(no sort, no skip, maxitems = 1), and return the first document or the
explicit not-found value `none`. -/
def get (db : List Doc) (identifier : String) : Except String (Option Doc) :=
  match parseObjectId identifier with
  | none => .error "InvalidId"
  | some o =>
    let fetched := getFeatureList db [.idEq o] [] 0 1
    .ok fetched.1.head?

/-- `{'$set': data}` semantics of `update_one`: set each field of `data` in
the stored document, in order, leaving all other fields untouched. -/
def applySet (data : List (String × TVal)) (d : Doc) : Doc :=
  match data with
  | [] => d
  | kv :: rest => applySet rest (setKey kv.1 kv.2 d)

/-- `update_one` targets at most one document: apply `$set` to the first
document matching the `_id` filter. -/
def updateFirst (o : Nat) (data : List (String × TVal)) : List Doc → List Doc
  | [] => []
  | d :: rest =>
    if condMatch d (.idEq o) then applySet data d :: rest
    else d :: updateFirst o data rest

/-- `MongoProvider.update`: strip the top-level `id` key from the updated
feature, then `$set` the remaining pairs on the document matching the
parsed identifier.  Returns the new database state. -/
def update (db : List Doc) (identifier : String)
    (updated_feature : List (String × TVal)) : Except String (List Doc) :=
  match parseObjectId identifier with
  | none => .error "InvalidId"
  | some o => .ok (updateFirst o (eraseKey "id" updated_feature) db)

/-! ### Association-list lemmas -/

theorem lookupK_setKey (k k0 : String) (v : α) (d : List (String × α)) :
    lookupK k (setKey k0 v d) = if k0 = k then some v else lookupK k d := by
  induction d with
  | nil => simp [setKey, lookupK]
  | cons kv rest ih =>
    obtain ⟨k1, v1⟩ := kv
    by_cases h1 : k1 = k0
    · subst h1
      by_cases h2 : k1 = k <;> simp [setKey, lookupK, h2]
    · by_cases h2 : k1 = k
      · subst h2
        have h0 : ¬ (k0 = k1) := fun he => h1 he.symm
        simp [setKey, lookupK, h1, h0]
      · simp [setKey, lookupK, h1, h2, ih]

theorem lookupK_eraseKey_self (k : String) (d : List (String × α)) :
    lookupK k (eraseKey k d) = none := by
  induction d with
  | nil => rfl
  | cons kv rest ih =>
    obtain ⟨k1, v1⟩ := kv
    by_cases h1 : k1 = k
    · simpa [eraseKey, List.filter_cons, h1] using ih
    · simpa [eraseKey, List.filter_cons, lookupK, h1] using ih

theorem lookupK_eraseKey_ne (k k0 : String) (d : List (String × α))
    (h : k ≠ k0) :
    lookupK k (eraseKey k0 d) = lookupK k d := by
  induction d with
  | nil => rfl
  | cons kv rest ih =>
    obtain ⟨k1, v1⟩ := kv
    by_cases h1 : k1 = k0
    · subst h1
      have h2 : ¬ (k1 = k) := fun he => h (he ▸ rfl)
      simpa [eraseKey, List.filter_cons, lookupK, h2] using ih
    · by_cases h2 : k1 = k
      · subst h2
        simp [eraseKey, List.filter_cons, lookupK, h1]
      · simpa [eraseKey, List.filter_cons, lookupK, h1, h2] using ih

theorem lookupK_eq_none_of_not_mem (k : String) (d : List (String × α))
    (h : k ∉ d.map Prod.fst) :
    lookupK k d = none := by
  induction d with
  | nil => rfl
  | cons kv rest ih =>
    obtain ⟨k1, v1⟩ := kv
    simp only [List.map_cons, List.mem_cons] at h
    push_neg at h
    have h1 : ¬ (k1 = k) := fun he => h.1 he.symm
    simp only [lookupK, h1, if_false]
    exact ih h.2

/-! ### `$set` lemmas -/

theorem lookupK_applySet_none (data : List (String × TVal)) (d : Doc) (k : String)
    (h : lookupK k data = none) :
    lookupK k (applySet data d) = lookupK k d := by
  induction data generalizing d with
  | nil => rfl
  | cons kv rest ih =>
    obtain ⟨k1, v1⟩ := kv
    by_cases h1 : k1 = k
    · simp [lookupK, h1] at h
    · simp only [lookupK, h1, if_false] at h
      rw [applySet, ih _ h, lookupK_setKey]
      simp [h1]

theorem lookupK_applySet_some (data : List (String × TVal)) (d : Doc) (k : String)
    (v : TVal) (hn : (data.map Prod.fst).Nodup) (h : lookupK k data = some v) :
    lookupK k (applySet data d) = some v := by
  induction data generalizing d with
  | nil => simp [lookupK] at h
  | cons kv rest ih =>
    obtain ⟨k1, v1⟩ := kv
    simp only [List.map_cons, List.nodup_cons] at hn
    by_cases h1 : k1 = k
    · subst h1
      simp [lookupK] at h
      have hrest : lookupK k1 rest = none :=
        lookupK_eq_none_of_not_mem _ _ hn.1
      rw [applySet, lookupK_applySet_none _ _ _ hrest, lookupK_setKey]
      simp [h]
    · simp only [lookupK, h1, if_false] at h
      rw [applySet]
      exact ih _ hn.2 h

/-! ### Sort lemmas -/

theorem length_insertLe (le : α → α → Bool) (a : α) (l : List α) :
    (insertLe le a l).length = l.length + 1 := by
  induction l with
  | nil => rfl
  | cons b rest ih =>
    by_cases h : le a b <;> simp [insertLe, h, ih]

theorem length_sortWith (le : α → α → Bool) (l : List α) :
    (sortWith le l).length = l.length := by
  induction l with
  | nil => rfl
  | cons a rest ih => simp [sortWith, length_insertLe, ih]

theorem mem_insertLe (le : α → α → Bool) (a b : α) (l : List α) :
    b ∈ insertLe le a l ↔ b = a ∨ b ∈ l := by
  induction l with
  | nil => simp [insertLe]
  | cons c rest ih =>
    by_cases h : le a c
    · simp [insertLe, h]
    · simp [insertLe, h, ih]
      tauto

theorem mem_sortWith (le : α → α → Bool) (a : α) (l : List α) :
    a ∈ sortWith le l ↔ a ∈ l := by
  induction l with
  | nil => simp [sortWith]
  | cons b rest ih => simp [sortWith, mem_insertLe, ih]

/-! ### Fetch-path lemmas -/

theorem getFeatureList_snd (db : List Doc) (filt : List QCond)
    (sl : List (String × Int)) (skip : Nat) (mi : Int) :
    (getFeatureList db filt sl skip mi).2 =
      (db.filter (docMatch filt)).length := rfl

theorem getFeatureList_length_le (db : List Doc) (filt : List QCond)
    (sl : List (String × Int)) (skip : Nat) (mi : Int) (h : 0 < mi) :
    (getFeatureList db filt sl skip mi).1.length ≤ mi.toNat := by
  simp only [getFeatureList, if_pos h, List.length_map, List.length_take]
  exact min_le_left _ _

theorem getFeatureList_mem (db : List Doc) (filt : List QCond)
    (sl : List (String × Int)) (skip : Nat) (mi : Int) (d : Doc)
    (hd : d ∈ (getFeatureList db filt sl skip mi).1) :
    ∃ d0 ∈ db, docMatch filt d0 = true ∧ d = normalizeDoc d0 := by
  simp only [getFeatureList, List.mem_map] at hd
  obtain ⟨d0, hd0, rfl⟩ := hd
  have hsorted : d0 ∈ (if sl.isEmpty then db.filter (docMatch filt)
      else sortWith (docLe sl) (db.filter (docMatch filt))) := by
    by_cases hcap : mi > 0
    · rw [if_pos hcap] at hd0
      exact List.mem_of_mem_drop (List.mem_of_mem_take hd0)
    · rw [if_neg hcap] at hd0
      exact List.mem_of_mem_drop hd0
  have hfound : d0 ∈ db.filter (docMatch filt) := by
    by_cases hsl : sl.isEmpty
    · rwa [if_pos hsl] at hsorted
    · rw [if_neg hsl] at hsorted
      exact (mem_sortWith _ _ _).mp hsorted
  rw [List.mem_filter] at hfound
  exact ⟨d0, hfound.1, hfound.2, rfl⟩

theorem head?_map_take_one (l : List α) (f : α → β) :
    ((l.take 1).map f).head? = l.head?.map f := by
  cases l <;> rfl

/-- Characterization of a successful `query`: once the filter builds, the
response is the wrapped `getFeatureList` result, emptied in `hits` mode. -/
theorem query_ok (dtField : String) (db : List Doc) (startindex : Nat)
    (limit : Int) (resulttype : String) (bbox : List Rat)
    (datetime : Option DatetimeRange) (properties : List (String × PVal))
    (sortby : List SortSpec) (filt : List QCond)
    (hf : buildFilter dtField bbox datetime properties = .ok filt) :
    query dtField db startindex limit resulttype bbox datetime properties
        sortby =
      .ok { type := "FeatureCollection"
            features :=
              if resulttype = "hits" then []
              else (getFeatureList db filt (sortTranslate dtField sortby)
                      startindex limit).1
            numberMatched :=
              (getFeatureList db filt (sortTranslate dtField sortby)
                 startindex limit).2
            numberReturned :=
              (if resulttype = "hits" then []
               else (getFeatureList db filt (sortTranslate dtField sortby)
                       startindex limit).1).length } := by
  simp [query, hf, bind, Except.bind, pure, Except.pure]

/-! ### Claim theorems -/

/-- C1: when a datetime range has an upper bound `e` with a non-zero
sub-millisecond component, the filter translation keeps the lower bound and
replaces the upper bound by `e` plus one millisecond, used as a strict
`$lt`; at the store's one-millisecond granularity this bound is the
smallest whole millisecond that is ≥ the true bound, so no record whose
true timestamp lies in `[start, e)` at full precision fails the translated
comparison; and at full precision a record exactly at `e` lies outside the
half-open range `[start, e)` while one 1 microsecond earlier lies inside. -/
theorem dt_subms_upper_bound_rounded (dtField : String) (dt : DatetimeRange)
    (s e : Nat) (hs : dt.start = some s) (he : dt.stop = some e)
    (hsub : e % 1000 ≠ 0) :
    dtConds dtField (some dt) =
      .ok [QCond.dtRange dtField (some s) (some (e + 1000))] ∧
    (1000 * msTrunc (e + 1000)) % 1000 = 0 ∧
    e ≤ 1000 * msTrunc (e + 1000) ∧
    (∀ m : Nat, m % 1000 = 0 → e ≤ m → 1000 * msTrunc (e + 1000) ≤ m) ∧
    (∀ (d : Doc) (l : List (String × PVal)) (u : Nat),
      lookupK "properties" d = some (.props l) →
      lookupK dtField l = some (.date u) →
      condMatch d (QCond.dtRange dtField (some s) (some (e + 1000))) =
        (decide (msTrunc s ≤ msTrunc u) &&
         decide (msTrunc u < msTrunc (e + 1000)))) ∧
    (∀ (d : Doc) (l : List (String × PVal)) (u : Nat),
      lookupK "properties" d = some (.props l) →
      lookupK dtField l = some (.date u) →
      s ≤ u → u < e →
      condMatch d (QCond.dtRange dtField (some s) (some (e + 1000))) = true) ∧
    ¬ (s ≤ e ∧ e < e) ∧
    (s < e → s ≤ e - 1 ∧ e - 1 < e) := by
  obtain ⟨os, oe⟩ := dt
  simp only at hs he
  subst hs; subst he
  refine ⟨?_, ?_, ?_, ?_, ?_, ?_, ?_, ?_⟩
  · simp [dtConds, hsub]
  · simp [msTrunc, Nat.mul_mod_right]
  · simp only [msTrunc]; omega
  · intro m hm hem; simp only [msTrunc]; omega
  · intro d l u hd hl
    simp [condMatch, hd, hl]
  · intro d l u hd hl hsu hue
    simp only [condMatch, hd, hl]
    have h1 : msTrunc s ≤ msTrunc u := by simp only [msTrunc]; omega
    have h2 : msTrunc u < msTrunc (e + 1000) := by simp only [msTrunc]; omega
    simp [h1, h2]
  · omega
  · intro h; omega

/-- Witness for C1 at the range `[5000µs, 6500µs]`: 6500 has a non-zero
sub-millisecond part and the translated upper bound is 7500µs. -/
theorem dt_subms_upper_bound_rounded_witness :
    6500 % 1000 ≠ 0 ∧
    dtConds "dtf" (some { start := some 5000, stop := some 6500 }) =
      .ok [QCond.dtRange "dtf" (some 5000) (some 7500)] :=
  ⟨by decide,
   (dt_subms_upper_bound_rounded "dtf"
     { start := some 5000, stop := some 6500 } 5000 6500 rfl rfl
     (by decide)).1⟩

/-- C2: a `query` call whose datetime range has both bounds absent always
fails with the `ValueError` (invalid-argument) condition, so no feature
collection is produced. -/
theorem query_empty_range_error (dtField : String) (db : List Doc)
    (startindex : Nat) (limit : Int) (resulttype : String) (bbox : List Rat)
    (properties : List (String × PVal)) (sortby : List SortSpec) :
    query dtField db startindex limit resulttype bbox
      (some { start := none, stop := none }) properties sortby =
      .error "DatetimeRange begin and end are None" := rfl

/-- C3 counterexample: with a one-document store and requested limit 0 (a
non-negative limit), `query` returns one feature, so `numberReturned` is 1
and exceeds the limit — the cap is disabled at 0, not enforced. -/
theorem query_limit_zero_cex :
    query "datetime" [[("_id", TVal.oid 1)]] 0 0 "results" [] none [] [] =
      .ok { type := "FeatureCollection"
            features := [[("id", TVal.str "1")]]
            numberMatched := 1
            numberReturned := 1 } ∧
    (0 : Int) ≤ 0 ∧ ¬ ((1 : Int) ≤ 0) := by
  refine ⟨rfl, by omega, by omega⟩

/-- C3 (amended): `numberReturned` equals the length of the returned
features, and is at most the requested limit when that limit is strictly
positive (at limit 0 the cap is disabled); `numberMatched` equals the
total count of documents matching the built filter and is independent of
limit and startindex. -/
theorem query_counts (dtField : String) (db : List Doc) (startindex : Nat)
    (limit : Int) (resulttype : String) (bbox : List Rat)
    (datetime : Option DatetimeRange) (properties : List (String × PVal))
    (sortby : List SortSpec) (filt : List QCond) (fc : FeatureCollection)
    (hf : buildFilter dtField bbox datetime properties = .ok filt)
    (hq : query dtField db startindex limit resulttype bbox datetime
            properties sortby = .ok fc) :
    fc.numberReturned = fc.features.length ∧
    (0 < limit → (fc.numberReturned : Int) ≤ limit) ∧
    fc.numberMatched = (db.filter (docMatch filt)).length ∧
    (∀ (startindex2 : Nat) (limit2 : Int) (resulttype2 : String)
        (sortby2 : List SortSpec) (fc2 : FeatureCollection),
      query dtField db startindex2 limit2 resulttype2 bbox datetime
          properties sortby2 = .ok fc2 →
      fc2.numberMatched = fc.numberMatched) := by
  rw [query_ok dtField db startindex limit resulttype bbox datetime
        properties sortby filt hf] at hq
  injection hq with hq
  subst hq
  refine ⟨rfl, ?_, rfl, ?_⟩
  · intro hpos
    by_cases hres : resulttype = "hits"
    · simp [hres]; omega
    · simp only [hres, if_false]
      have hle := getFeatureList_length_le db filt
        (sortTranslate dtField sortby) startindex limit hpos
      omega
  · intro startindex2 limit2 resulttype2 sortby2 fc2 hq2
    rw [query_ok dtField db startindex2 limit2 resulttype2 bbox datetime
          properties sortby2 filt hf] at hq2
    injection hq2 with hq2
    subst hq2
    rfl

/-- Witness for C3 (amended) at a one-document store with limit 10. -/
theorem query_counts_witness :
    ((0 : Int) < 10) ∧
    ({ type := "FeatureCollection"
       features := [[("id", TVal.str "1")]]
       numberMatched := 1
       numberReturned := 1 } : FeatureCollection).numberReturned =
      [[("id", TVal.str "1")]].length := by
  refine ⟨by omega, ?_⟩
  exact (query_counts "datetime" [[("_id", TVal.oid 1)]] 0 10 "results" []
    none [] [] [] _ rfl rfl).1

/-- C4: in `hits` mode `query` returns an empty feature list (so
`numberReturned` is 0) while `numberMatched` still equals the count of
documents matching the built filter. -/
theorem query_hits_mode (dtField : String) (db : List Doc) (startindex : Nat)
    (limit : Int) (bbox : List Rat) (datetime : Option DatetimeRange)
    (properties : List (String × PVal)) (sortby : List SortSpec)
    (filt : List QCond) (fc : FeatureCollection)
    (hf : buildFilter dtField bbox datetime properties = .ok filt)
    (hq : query dtField db startindex limit "hits" bbox datetime properties
            sortby = .ok fc) :
    fc.features = [] ∧ fc.numberReturned = 0 ∧
    fc.numberMatched = (db.filter (docMatch filt)).length := by
  rw [query_ok dtField db startindex limit "hits" bbox datetime properties
        sortby filt hf] at hq
  injection hq with hq
  subst hq
  exact ⟨by simp, by simp, rfl⟩

/-- Witness for C4 at a two-document store with an empty filter. -/
theorem query_hits_mode_witness :
    ({ type := "FeatureCollection"
       features := ([] : List Doc)
       numberMatched := 2
       numberReturned := 0 } : FeatureCollection).features = [] ∧
    (2 : Nat) = 2 := by
  refine ⟨?_, rfl⟩
  exact (query_hits_mode "datetime"
    [[("_id", TVal.oid 1)], [("_id", TVal.oid 2)]] 0 10 [] none [] [] []
    _ rfl rfl).1

/-- C5: a bounding box of exactly 4 values [x, y, w, h] contributes the
within-box geometry constraint with corners (x, y) and (w, h), prepended to
the filter of the same query without a bbox; a bbox whose length is not 4
contributes nothing (the filter is identical to the bbox-less one); and
with no active constraints the filter is empty and matches every
document. -/
theorem bbox_filter_shape (dtField : String) (bbox : List Rat)
    (datetime : Option DatetimeRange) (properties : List (String × PVal)) :
    (∀ x y w h : Rat, bbox = [x, y, w, h] →
      buildFilter dtField bbox datetime properties =
        (buildFilter dtField [] datetime properties).map
          (fun rest => QCond.geoWithinBox x y w h :: rest)) ∧
    (bbox.length ≠ 4 →
      buildFilter dtField bbox datetime properties =
        buildFilter dtField [] datetime properties) ∧
    buildFilter dtField [] none [] = .ok [] ∧
    (∀ d : Doc, docMatch [] d = true) := by
  refine ⟨?_, ?_, rfl, fun d => rfl⟩
  · intro x y w h hb
    subst hb
    cases hdt : dtConds dtField datetime with
    | error msg =>
      simp [buildFilter, hdt, bind, Except.bind, Except.map]
    | ok dtc =>
      simp [buildFilter, hdt, bind, Except.bind, Except.map, pure,
        Except.pure, bboxConds]
  · intro hlen
    cases hdt : dtConds dtField datetime with
    | error msg =>
      simp [buildFilter, hdt, bind, Except.bind]
    | ok dtc =>
      have hb : bboxConds bbox = [] := by simp [bboxConds, hlen]
      have hb0 : bboxConds ([] : List Rat) = [] := rfl
      simp [buildFilter, hdt, bind, Except.bind, hb, hb0]

/-- Witness for C5: a 4-element bbox contributes the box constraint, a
3-element bbox leaves the filter unchanged. -/
theorem bbox_filter_shape_witness :
    buildFilter "datetime" [1, 2, 3, 4] none [] =
      .ok [QCond.geoWithinBox 1 2 3 4] ∧
    ([1, 2, 3] : List Rat).length ≠ 4 ∧
    buildFilter "datetime" [1, 2, 3] none [] =
      buildFilter "datetime" [] none [] := by
  refine ⟨?_, by simp, ?_⟩
  · have h := (bbox_filter_shape "datetime" [1, 2, 3, 4] none []).1
      1 2 3 4 rfl
    simpa using h
  · exact (bbox_filter_shape "datetime" [1, 2, 3] none []).2.1 (by simp)

/-- C6: the sort translation maps the ordered sequence of sort
specifications pointwise — preserving order and duplicates — rewriting the
property name `datetime` to the configured datetime field path and every
other name to `properties.<name>`, with direction ascending exactly for
order `"A"`. -/
theorem sort_translation_pointwise (dtField : String)
    (sortby : List SortSpec) :
    (sortTranslate dtField sortby).length = sortby.length ∧
    ∀ (i : Nat) (h1 : i < (sortTranslate dtField sortby).length)
      (h2 : i < sortby.length),
      (sortTranslate dtField sortby).get ⟨i, h1⟩ =
        ((if (sortby.get ⟨i, h2⟩).property = "datetime"
          then "properties." ++ dtField
          else "properties." ++ (sortby.get ⟨i, h2⟩).property),
         (if (sortby.get ⟨i, h2⟩).order = "A"
          then ASCENDING else DESCENDING)) := by
  refine ⟨by simp [sortTranslate], ?_⟩
  intro i h1 h2
  simp [sortTranslate, getSortPropertyName]

/-- Witness for C6 on a three-entry sort list with a duplicate property:
the second entry (a repeated non-datetime property, descending) maps to
`properties.foo` with the descending direction. -/
theorem sort_translation_pointwise_witness :
    (1 : Nat) <
      (sortTranslate "dtf"
        [{ property := "datetime", order := "A" },
         { property := "foo", order := "D" },
         { property := "foo", order := "D" }]).length ∧
    (sortTranslate "dtf"
      [{ property := "datetime", order := "A" },
       { property := "foo", order := "D" },
       { property := "foo", order := "D" }]).get ⟨1, by decide⟩ =
      ("properties.foo", DESCENDING) := by
  refine ⟨by decide, ?_⟩
  have h := (sort_translation_pointwise "dtf"
    [{ property := "datetime", order := "A" },
     { property := "foo", order := "D" },
     { property := "foo", order := "D" }]).2 1 (by decide) (by decide)
  simpa using h

/-- C7: `update` strips the top-level `id` key from the update document and
then `$set`s only the remaining top-level pairs on the matching stored
document: every stored field not present in the update is unchanged, the
stored `id` field (if any) is untouched, and every non-`id` field of the
update document overwrites the stored value. -/
theorem update_set_semantics (db : List Doc) (identifier : String) (o : Nat)
    (u : List (String × TVal))
    (ho : parseObjectId identifier = some o)
    (hu : (u.map Prod.fst).Nodup) :
    update db identifier u = .ok (updateFirst o (eraseKey "id" u) db) ∧
    lookupK "id" (eraseKey "id" u) = none ∧
    ∀ s : Doc,
      (∀ k, lookupK k u = none →
        lookupK k (applySet (eraseKey "id" u) s) = lookupK k s) ∧
      lookupK "id" (applySet (eraseKey "id" u) s) = lookupK "id" s ∧
      (∀ k v, k ≠ "id" → lookupK k u = some v →
        lookupK k (applySet (eraseKey "id" u) s) = some v) := by
  have hsub : List.Sublist ((eraseKey "id" u).map Prod.fst)
      (u.map Prod.fst) :=
    (List.filter_sublist u).map Prod.fst
  have hnd : ((eraseKey "id" u).map Prod.fst).Nodup := hu.sublist hsub
  refine ⟨by simp [update, ho], lookupK_eraseKey_self _ _, ?_⟩
  intro s
  refine ⟨?_, ?_, ?_⟩
  · intro k hk
    have hk2 : lookupK k (eraseKey "id" u) = none := by
      by_cases hkid : k = "id"
      · subst hkid; exact lookupK_eraseKey_self _ _
      · rw [lookupK_eraseKey_ne _ _ _ hkid]; exact hk
    exact lookupK_applySet_none _ _ _ hk2
  · exact lookupK_applySet_none _ _ _ (lookupK_eraseKey_self _ _)
  · intro k v hkid hkv
    have hk2 : lookupK k (eraseKey "id" u) = some v := by
      rw [lookupK_eraseKey_ne _ _ _ hkid]; exact hkv
    exact lookupK_applySet_some _ _ _ _ hnd hk2

/-- Witness for C7: updating `{_id: 1, a: "x", b: "y"}` with
`{id: "z", b: "B", c: "C"}` keeps `a` and `_id`, overwrites `b`, adds `c`,
and never writes `id`. -/
theorem update_set_semantics_witness :
    updateFirst 1
      (eraseKey "id"
        [("id", TVal.str "z"), ("b", TVal.str "B"), ("c", TVal.str "C")])
      [[("_id", TVal.oid 1), ("a", TVal.str "x"), ("b", TVal.str "y")]] =
      [[("_id", TVal.oid 1), ("a", TVal.str "x"), ("b", TVal.str "B"),
        ("c", TVal.str "C")]] ∧
    update [[("_id", TVal.oid 1), ("a", TVal.str "x"), ("b", TVal.str "y")]]
      "1" [("id", TVal.str "z"), ("b", TVal.str "B"), ("c", TVal.str "C")] =
      .ok (updateFirst 1
        (eraseKey "id"
          [("id", TVal.str "z"), ("b", TVal.str "B"), ("c", TVal.str "C")])
        [[("_id", TVal.oid 1), ("a", TVal.str "x"), ("b", TVal.str "y")]]) :=
  ⟨by decide,
   (update_set_semantics
     [[("_id", TVal.oid 1), ("a", TVal.str "x"), ("b", TVal.str "y")]] "1" 1
     [("id", TVal.str "z"), ("b", TVal.str "B"), ("c", TVal.str "C")]
     (by decide) (by decide)).1⟩

/-- C8: `get` fails with the invalid-identifier condition when the
identifier string does not parse into the native identifier type; on
success it returns the first matching document — normalized, fetched with
no sort, no skip and a cap of 1 — or the explicit not-found value `none`
(an `ok` result, not an error) when nothing matches. -/
theorem get_lookup_contract (db : List Doc) (identifier : String) :
    (parseObjectId identifier = none →
      get db identifier = .error "InvalidId") ∧
    (∀ o, parseObjectId identifier = some o →
      get db identifier =
        .ok (((db.filter fun d => condMatch d (.idEq o)).head?).map
              normalizeDoc)) := by
  constructor
  · intro h; simp [get, h]
  · intro o h
    have hpred : docMatch [QCond.idEq o] = fun d => condMatch d (.idEq o) := by
      funext d; simp [docMatch]
    simp only [get, h]
    unfold getFeatureList
    simp only [hpred, List.isEmpty_nil, if_true, List.drop_zero]
    rw [if_pos (by omega : (1 : Int) > 0)]
    rw [show ((1 : Int).toNat) = 1 from rfl]
    rw [head?_map_take_one]

/-- Witness for C8: an unparsable identifier errors; a parsable one returns
the normalized match (or `none` on an empty store). -/
theorem get_lookup_contract_witness :
    (parseObjectId "zz" = none) ∧
    get [[("_id", TVal.oid 7)]] "zz" = .error "InvalidId" ∧
    (parseObjectId "7" = some 7) ∧
    get [[("_id", TVal.oid 7)]] "7" =
      .ok ((([[("_id", TVal.oid 7)]] :
          List Doc).filter fun d => condMatch d (.idEq 7)).head?.map
        normalizeDoc) := by
  refine ⟨by decide, ?_, by decide, ?_⟩
  · exact (get_lookup_contract [[("_id", TVal.oid 7)]] "zz").1 (by decide)
  · exact (get_lookup_contract [[("_id", TVal.oid 7)]] "7").2 7 (by decide)

/-- C9: when every stored document carries a native `ObjectId` under `_id`,
every document returned by the fetch path (the shared fetch routine, hence
both `query` and `get`) has a string-valued `id` field and no `_id`
field. -/
theorem fetch_normalized_identifier (db : List Doc)
    (hdb : db.all hasOid = true) :
    (∀ (filt : List QCond) (sl : List (String × Int)) (skip : Nat)
        (mi : Int), ∀ d ∈ (getFeatureList db filt sl skip mi).1,
      lookupK "_id" d = none ∧ isStrVal (lookupK "id" d) = true) ∧
    (∀ (dtField : String) (startindex : Nat) (limit : Int)
        (resulttype : String) (bbox : List Rat)
        (datetime : Option DatetimeRange)
        (properties : List (String × PVal)) (sortby : List SortSpec)
        (fc : FeatureCollection),
      query dtField db startindex limit resulttype bbox datetime properties
          sortby = .ok fc →
      ∀ d ∈ fc.features,
        lookupK "_id" d = none ∧ isStrVal (lookupK "id" d) = true) ∧
    (∀ (identifier : String) (d : Doc),
      get db identifier = .ok (some d) →
      lookupK "_id" d = none ∧ isStrVal (lookupK "id" d) = true) := by
  have main : ∀ (filt : List QCond) (sl : List (String × Int)) (skip : Nat)
      (mi : Int), ∀ d ∈ (getFeatureList db filt sl skip mi).1,
      lookupK "_id" d = none ∧ isStrVal (lookupK "id" d) = true := by
    intro filt sl skip mi d hd
    obtain ⟨d0, hd0, hmatch, rfl⟩ := getFeatureList_mem db filt sl skip mi d hd
    have hoid : hasOid d0 = true := List.all_eq_true.mp hdb d0 hd0
    cases hv : lookupK "_id" d0 with
    | none => simp [hasOid, hv] at hoid
    | some v =>
      cases v with
      | oid n =>
        constructor
        · show lookupK "_id" (normalizeDoc d0) = none
          unfold normalizeDoc
          rw [hv, lookupK_setKey, if_neg (by decide)]
          exact lookupK_eraseKey_self _ _
        · show isStrVal (lookupK "id" (normalizeDoc d0)) = true
          unfold normalizeDoc
          rw [hv, lookupK_setKey, if_pos rfl]
          rfl
      | str s => simp [hasOid, hv] at hoid
      | geo x y => simp [hasOid, hv] at hoid
      | props l => simp [hasOid, hv] at hoid
      | pval v => simp [hasOid, hv] at hoid
  refine ⟨main, ?_, ?_⟩
  · intro dtField startindex limit resulttype bbox datetime properties
      sortby fc hq d hd
    cases hb : buildFilter dtField bbox datetime properties with
    | error msg => simp [query, hb, bind, Except.bind] at hq
    | ok filt =>
      rw [query_ok dtField db startindex limit resulttype bbox datetime
            properties sortby filt hb] at hq
      injection hq with hq
      subst hq
      by_cases hres : resulttype = "hits"
      · rw [if_pos hres] at hd
        simp at hd
      · rw [if_neg hres] at hd
        exact main filt (sortTranslate dtField sortby) startindex limit d hd
  · intro identifier d hg
    cases hp : parseObjectId identifier with
    | none => simp [get, hp] at hg
    | some o =>
      simp only [get, hp, Except.ok.injEq] at hg
      have hd : d ∈ (getFeatureList db [.idEq o] [] 0 1).1 := by
        cases hl : (getFeatureList db [.idEq o] [] 0 1).1 with
        | nil => rw [hl] at hg; simp at hg
        | cons a t =>
          rw [hl] at hg
          simp only [List.head?_cons, Option.some.injEq] at hg
          rw [hg]
          exact List.mem_cons_self d t
      exact main [.idEq o] [] 0 1 d hd

/-- Witness for C9: a one-document store; the fetched document has `id`
equal to the string form of the native identifier and no `_id`. -/
theorem fetch_normalized_identifier_witness :
    ([[("_id", TVal.oid 5), ("x", TVal.str "s")]] : List Doc).all hasOid =
      true ∧
    lookupK "_id" [("x", TVal.str "s"), ("id", TVal.str "5")] = none ∧
    isStrVal (lookupK "id" [("x", TVal.str "s"), ("id", TVal.str "5")]) =
      true := by
  refine ⟨by decide, ?_⟩
  exact (fetch_normalized_identifier [[("_id", TVal.oid 5),
    ("x", TVal.str "s")]] (by decide)).1 [] [] 0 1
    [("x", TVal.str "s"), ("id", TVal.str "5")] (by decide)

/-- C10: the result cap of the fetch routine applies only when the maximum
item count is strictly positive; at exactly 0 (not only at the negative
sentinel) the cap is disabled and every remaining document after the skip
offset is returned. -/
theorem maxitems_zero_unbounded (db : List Doc) (filt : List QCond)
    (sl : List (String × Int)) (skip : Nat) :
    (∀ mi : Int, mi ≤ 0 →
      getFeatureList db filt sl skip mi = getFeatureList db filt sl skip 0) ∧
    (getFeatureList db filt sl skip 0).1.length =
      (db.filter (docMatch filt)).length - skip ∧
    (∀ mi : Int, 0 < mi →
      (getFeatureList db filt sl skip mi).1.length ≤ mi.toNat) := by
  refine ⟨?_, ?_, ?_⟩
  · intro mi hmi
    simp only [getFeatureList]
    rw [if_neg (by omega : ¬ (mi > 0)), if_neg (by omega : ¬ ((0 : Int) > 0))]
  · simp only [getFeatureList]
    rw [if_neg (by omega : ¬ ((0 : Int) > 0))]
    simp only [List.length_map, List.length_drop]
    by_cases hsl : sl.isEmpty
    · rw [if_pos hsl]
    · rw [if_neg hsl, length_sortWith]
  · intro mi h
    exact getFeatureList_length_le db filt sl skip mi h

/-- Witness for C10: with two stored documents and maxitems −1 versus 0,
the fetch results coincide (both uncapped). -/
theorem maxitems_zero_unbounded_witness :
    (-1 : Int) ≤ 0 ∧
    getFeatureList [[("_id", TVal.oid 1)], [("_id", TVal.oid 2)]] [] [] 0
        (-1) =
      getFeatureList [[("_id", TVal.oid 1)], [("_id", TVal.oid 2)]] [] [] 0
        0 :=
  ⟨by omega,
   (maxitems_zero_unbounded [[("_id", TVal.oid 1)], [("_id", TVal.oid 2)]]
     [] [] 0).1 (-1) (by omega)⟩

end MongoSpec
